import Mathlib

/-!
Verification of the layer-skipping transformer module
(trax/models/research/layerdrop_transformer.py).

The module builds two LayerDrop language models:
LayerDropSkippingTransformerLM (a single decision scalar shared by all
layers, compared against the layer index) and LayerDropTransformerLM
(one fresh decision scalar per layer, compared against the skip
fraction).  The embedding below models the control layer exactly:
SyncedRandom, LargerThan, tl.Cond with a no-op else branch, the
per-layer conditioned blocks, and the construction-time computation of
the sampling bounds and cutoffs.  The transformer internals (embedder,
decoder block, layer norm, output head) are external collaborators;
they enter as opaque-to-the-logic function parameters collected in
Externals, so hyperparameters such as vocab_size or d_ff only
parameterize those functions and play no role in the skip machinery.

Randomness is modelled as a stream of unit uniform samples
u ∈ [0,1) indexed by a position that each draw advances by one;
random.uniform(rng, (), float32, lo, hi) maps the unit sample u to
lo + u * (hi - lo), which is exactly the jax construction.  Scalars
are rationals, an exact model of the comparisons the module performs.
-/

namespace LayerDrop

/-- Run mode of a model instance, fixed at construction (source lines 55 and 131). -/
inductive Mode
  | train
  | eval
  | predict
deriving DecidableEq

/-- The only exception either builder can raise: Python float division by zero at
source line 103, maximum_layers = float(n_layers) / skip_fraction, when
skip_fraction is zero.  The source file contains no ConfigurationError and no
parameter validation of any kind. -/
inductive BuildError
  | zeroDivision
deriving DecidableEq

/-- The SyncedRandom layer (source lines 28-34): n_in = 0, n_out = 1.  It holds
the two sampling bounds. -/
structure SyncedRandom where
  min_val : ℚ
  max_val : ℚ
deriving DecidableEq

/-- SyncedRandom construction: init at lines 31-34 stores the two bounds and
never raises, whatever their order. -/
def syncedRandomInit (min_val max_val : ℚ) : Except BuildError SyncedRandom :=
  Except.ok ⟨min_val, max_val⟩

/-- One unit uniform sample u ∈ [0,1) taken from the caller random stream at
the current position; the position advances by one.  This models the rng use
at lines 37-39. -/
def drawUnit (stream : ℕ → ℚ) (pos : ℕ) : ℚ × ℕ :=
  (stream pos, pos + 1)

/-- SyncedRandom.forward (lines 36-40): random.uniform(rng, (), float32,
min_val, max_val), which maps the unit sample u to
min_val + u * (max_val - min_val).  Returns the drawn scalar together with the
advanced stream position.  The draw happens unconditionally, in every mode. -/
def SyncedRandom.forward (l : SyncedRandom) (stream : ℕ → ℚ) (pos : ℕ) : ℚ × ℕ :=
  let p := drawUnit stream pos
  (l.min_val + p.1 * (l.max_val - l.min_val), p.2)

/-- LargerThan(val) (lines 43-45): tl.Fn with body fun x: x > val.  (The layer
is mislabelled SmallerThan in the source name string; the behavior is x > val.)
Stated over any linear order; the models instantiate it at ℚ. -/
def LargerThan {α : Type} [LinearOrder α] (val : α) (x : α) : Bool :=
  decide (x > val)

/-- tl.Cond semantics: the boolean condition selects which of the two branches
is applied to the activation; the branch not selected is not evaluated. -/
def condExec {α : Type} (b : Bool) (thenB elseB : α → α) (x : α) : α :=
  if b then thenB x else elseB x

/-- tl.Serial() with no sublayers (lines 96 and 173): the no-op else branch. -/
def noop {α : Type} (x : α) : α := x

/-- The external collaborator layers, over an abstract activation type α:
shift-right, the embedder (Embedding, Dropout, PositionalEncoding, lines
79-83 and 155-159), the per-layer decoder block instances (each call to
transformer.DecoderBlock builds a distinct block, lines 93-94 and 170-171),
and the output head (LayerNorm, Dense, LogSoftmax). -/
structure Externals (α : Type) where
  shiftRight : α → α
  embed : α → α
  blocks : ℕ → α → α
  layerNorm : α → α
  dense : α → α
  logSoftmax : α → α

/-- Configuration the skipping builder computes at lines 101-105: the layer
count, the two SyncedRandom bounds, and the mode. -/
structure GlobalConfig where
  n_layers : ℕ
  minimum_layers : ℚ
  maximum_layers : ℚ
  mode : Mode
deriving DecidableEq

/-- LayerDropSkippingTransformerLM construction (lines 48-121; range bounds at
lines 101-105).  In train mode Python evaluates
float(n_layers) / skip_fraction, which raises ZeroDivisionError when
skip_fraction is zero; in every other case construction succeeds — the
function performs no validation of skip_fraction.  All other hyperparameters
only parameterize the external collaborator layers. -/
def LayerDropSkippingTransformerLM (n_layers : ℕ) (mode : Mode) (skip_fraction : ℚ) :
    Except BuildError GlobalConfig :=
  if mode = Mode.train then
    if skip_fraction = 0 then Except.error BuildError.zeroDivision
    else Except.ok ⟨n_layers, 0, (n_layers : ℚ) / skip_fraction, mode⟩
  else
    Except.ok ⟨n_layers, (n_layers : ℚ), (n_layers : ℚ), mode⟩

/-- ConditionedBlock(current_layer) of the skipping model (lines 85-99).
Stack discipline: Select([1,0,1]) feeds layers_to_keep to
LargerThan(float(current_layer)); Cond applies the decoder block or the no-op
tl.Serial() to the embedding; layers_to_keep stays on the stack below the
result.  The pair (activation, decision scalar) models that stack. -/
def ConditionedBlockG {α : Type} (block : α → α) (current_layer : ℕ) (xd : α × ℚ) : α × ℚ :=
  (condExec (LargerThan ((current_layer : ℚ)) xd.2) block noop xd.1, xd.2)

/-- The n_layers ConditionedBlock instances of the skipping model applied in
order (line 115: one block per i in range(n_layers)). -/
def globalStack {α : Type} (blocks : ℕ → α → α) (n : ℕ) (xd : α × ℚ) : α × ℚ :=
  (List.range n).foldl (fun acc i => ConditionedBlockG (blocks i) i acc) xd

/-- Full forward pass of the skipping model (lines 107-121): ShiftRight,
embedder, SyncedRandom(minimum_layers, maximum_layers), Swap, the conditioned
blocks, Select([0], n_in=2) dropping the scalar, LayerNorm, Dense, LogSoftmax.
Returns the output activation and the advanced stream position. -/
def globalForward {α : Type} (cfg : GlobalConfig) (ext : Externals α)
    (stream : ℕ → ℚ) (pos : ℕ) (tokens : α) : α × ℕ :=
  let x0 := ext.embed (ext.shiftRight tokens)
  let dp := SyncedRandom.forward ⟨cfg.minimum_layers, cfg.maximum_layers⟩ stream pos
  let xd := globalStack ext.blocks cfg.n_layers (x0, dp.1)
  (ext.logSoftmax (ext.dense (ext.layerNorm xd.1)), dp.2)

/-- Configuration the per-layer builder computes: the layer count, the Cond
cutoff of line 168 (skip_fraction in train mode, 0.0 otherwise), and the mode. -/
structure PerLayerConfig where
  n_layers : ℕ
  cutoff : ℚ
  mode : Mode
deriving DecidableEq

/-- LayerDropTransformerLM construction (lines 124-185).  The Cond cutoff is
skip_fraction if mode == train else 0.0 (line 168).  No validation is
performed and no exception can be raised, for any skip_fraction. -/
def LayerDropTransformerLM (n_layers : ℕ) (mode : Mode) (skip_fraction : ℚ) :
    Except BuildError PerLayerConfig :=
  Except.ok ⟨n_layers, if mode = Mode.train then skip_fraction else 0, mode⟩

/-- ConditionedBlock() of the per-layer model (lines 161-176): SyncedRandom(0, 1)
pushes a fresh scalar, then Cond with LargerThan(cutoff) applies the decoder
block or the no-op tl.Serial() to the embedding; the scalar is consumed by the
predicate.  The pair carries (activation, stream position). -/
def ConditionedBlockP {α : Type} (block : α → α) (cutoff : ℚ)
    (stream : ℕ → ℚ) (xp : α × ℕ) : α × ℕ :=
  let dp := SyncedRandom.forward ⟨0, 1⟩ stream xp.2
  (condExec (LargerThan cutoff dp.1) block noop xp.1, dp.2)

/-- The n_layers per-layer ConditionedBlock instances applied in order
(line 181: one block per i in range(n_layers)). -/
def perLayerStack {α : Type} (blocks : ℕ → α → α) (cutoff : ℚ) (n : ℕ)
    (stream : ℕ → ℚ) (xp : α × ℕ) : α × ℕ :=
  (List.range n).foldl (fun acc i => ConditionedBlockP (blocks i) cutoff stream acc) xp

/-- Full forward pass of the per-layer model (lines 178-185): ShiftRight,
embedder, the conditioned blocks, LayerNorm, Dense, LogSoftmax.  Returns the
output activation and the advanced stream position. -/
def perLayerForward {α : Type} (cfg : PerLayerConfig) (ext : Externals α)
    (stream : ℕ → ℚ) (pos : ℕ) (tokens : α) : α × ℕ :=
  let x0 := ext.embed (ext.shiftRight tokens)
  let xp := perLayerStack ext.blocks cfg.cutoff cfg.n_layers stream (x0, pos)
  (ext.logSoftmax (ext.dense (ext.layerNorm xp.1)), xp.2)

/-- The stack with every block executed, the behavior the spec ascribes to
non-train forward passes: every one of the n blocks runs, unconditionally. -/
def allBlocksStack {α : Type} (blocks : ℕ → α → α) (n : ℕ) (x : α) : α :=
  (List.range n).foldl (fun acc i => blocks i acc) x

/-- Concrete external layers over ℚ used to evaluate the models at concrete
inputs: every collaborator is the identity except the blocks, which add one,
so the output counts how many blocks executed. -/
def extQ : Externals ℚ where
  shiftRight := fun x => x
  embed := fun x => x
  blocks := fun _ x => x + 1
  layerNorm := fun x => x
  dense := fun x => x
  logSoftmax := fun x => x

/-- A conditioned block of the skipping model on an explicit pair: the block
applies exactly when the scalar exceeds the layer index, and the scalar rides
through unchanged. -/
theorem ConditionedBlockG_pair {α : Type} (block : α → α) (i : ℕ) (x : α) (d : ℚ) :
    ConditionedBlockG block i (x, d)
      = (if LargerThan ((i : ℚ)) d = true then block x else x, d) := by
  simp only [ConditionedBlockG, condExec, noop]

/-- Folding conditioned blocks of the skipping model over any index list
threads the decision scalar unchanged and conditions each block on that same
scalar. -/
theorem foldl_condG_eq {α : Type} (blocks : ℕ → α → α) (d : ℚ) :
    ∀ (l : List ℕ) (x : α),
      l.foldl (fun acc i => ConditionedBlockG (blocks i) i acc) (x, d)
        = (l.foldl (fun acc (i : ℕ) => if LargerThan ((i : ℚ)) d = true then blocks i acc else acc) x,
           d) := by
  intro l
  induction l with
  | nil => intro x; rfl
  | cons hd tl ih =>
    intro x
    simp only [List.foldl_cons, ConditionedBlockG_pair]
    exact ih _

/-- When the condition holds at every index of the list, the conditional fold
is the unconditional fold: every block runs. -/
theorem foldl_cond_all {α : Type} (blocks : ℕ → α → α) (d : ℚ) :
    ∀ (l : List ℕ), (∀ i ∈ l, LargerThan ((i : ℚ)) d = true) →
      ∀ x : α,
        l.foldl (fun acc (i : ℕ) => if LargerThan ((i : ℚ)) d = true then blocks i acc else acc) x
          = l.foldl (fun acc i => blocks i acc) x := by
  intro l
  induction l with
  | nil => intro _ x; rfl
  | cons hd tl ih =>
    intro h x
    simp only [List.foldl_cons, h hd (List.mem_cons_self hd tl),
      if_pos]
    exact ih (fun i hi => h i (List.mem_cons_of_mem hd hi)) _

/-- The scalar component of the skipping stack equals the scalar it was given:
the decision scalar reaches every block unchanged. -/
theorem globalStack_snd {α : Type} (blocks : ℕ → α → α) (n : ℕ) (x : α) (d : ℚ) :
    (globalStack blocks n (x, d)).2 = d := by
  simp only [globalStack, foldl_condG_eq]

/-- A per-layer conditioned block draws the unit sample at the current
position, advances the position by one, and applies the block exactly when
that sample exceeds the cutoff. -/
theorem ConditionedBlockP_pair {α : Type} (block : α → α) (c : ℚ)
    (stream : ℕ → ℚ) (x : α) (pos : ℕ) :
    ConditionedBlockP block c stream (x, pos)
      = (if stream pos > c then block x else x, pos + 1) := by
  by_cases h : stream pos > c <;>
    simp [ConditionedBlockP, SyncedRandom.forward, drawUnit, condExec, noop, LargerThan, h]

/-- The per-layer stack characterized by stream positions: layer i (counting
from the start position) decides on the sample at position pos + i alone, and
n layers advance the stream by exactly n draws. -/
theorem perLayerStack_eq {α : Type} (blocks : ℕ → α → α) (c : ℚ) (stream : ℕ → ℚ) :
    ∀ (n : ℕ) (x : α) (pos : ℕ),
      perLayerStack blocks c n stream (x, pos)
        = ((List.range n).foldl
             (fun acc i => if stream (pos + i) > c then blocks i acc else acc) x,
           pos + n) := by
  intro n
  induction n with
  | zero => intro x pos; rfl
  | succ m ih =>
    intro x pos
    simp only [perLayerStack, List.range_succ, List.foldl_append, List.foldl_cons,
      List.foldl_nil] at *
    rw [ih x pos, ConditionedBlockP_pair]
    rfl

/-- When the decision scalar clears every index below n, the skipping stack
executes all n blocks: it coincides with the unconditional stack. -/
theorem globalStack_all {α : Type} (blocks : ℕ → α → α) (n : ℕ) (x : α) (d : ℚ)
    (h : ∀ i : ℕ, i < n → LargerThan ((i : ℚ)) d = true) :
    (globalStack blocks n (x, d)).1 = allBlocksStack blocks n x := by
  simp only [globalStack, allBlocksStack, foldl_condG_eq]
  exact foldl_cond_all blocks d (List.range n) (fun i hi => h i (List.mem_range.mp hi)) x

/-- With coinciding bounds n on the random source, the skipping forward pass
produces the fully executed stack, for every stream and position: the drawn
scalar is the constant n and n clears every layer index below n. -/
theorem globalForward_const_output {α : Type} (n : ℕ) (m : Mode) (ext : Externals α)
    (stream : ℕ → ℚ) (pos : ℕ) (tokens : α) :
    (globalForward ⟨n, (n : ℚ), (n : ℚ), m⟩ ext stream pos tokens).1
      = ext.logSoftmax (ext.dense (ext.layerNorm
          (allBlocksStack ext.blocks n (ext.embed (ext.shiftRight tokens))))) := by
  have hd : (SyncedRandom.forward ⟨(n : ℚ), (n : ℚ)⟩ stream pos).1 = (n : ℚ) := by
    show (n : ℚ) + stream pos * ((n : ℚ) - (n : ℚ)) = (n : ℚ)
    ring
  have hst : (globalStack ext.blocks n
      (ext.embed (ext.shiftRight tokens),
       (SyncedRandom.forward ⟨(n : ℚ), (n : ℚ)⟩ stream pos).1)).1
        = allBlocksStack ext.blocks n (ext.embed (ext.shiftRight tokens)) := by
    rw [hd]
    refine globalStack_all ext.blocks n _ _ ?_
    intro i hi
    simp only [LargerThan, decide_eq_true_eq]
    exact_mod_cast hi
  show ext.logSoftmax (ext.dense (ext.layerNorm
      (globalStack ext.blocks n
        (ext.embed (ext.shiftRight tokens),
         (SyncedRandom.forward ⟨(n : ℚ), (n : ℚ)⟩ stream pos).1)).1)) = _
  rw [hst]

/-- C9: the threshold predicate LargerThan(cutoff) applied to a value returns
true precisely when the value strictly exceeds the cutoff; at exact equality
it returns false, so the block is skipped there, not executed.  The predicate
is a function of its two arguments alone. -/
theorem larger_than_strict :
    ∀ (val x : ℚ), (LargerThan val x = true ↔ x > val) ∧ LargerThan val val = false := by
  intro val x
  exact ⟨by simp [LargerThan], by simp [LargerThan]⟩

/-- C5 counterexample: both builders accept skip fractions far outside (0,1),
such as 3/2 and -1, and return a model configuration instead of failing with
a ConfigurationError at construction time. -/
theorem skip_fraction_no_validation_cx :
    LayerDropSkippingTransformerLM 6 Mode.train (3/2)
        = Except.ok ⟨6, 0, 4, Mode.train⟩
    ∧ LayerDropTransformerLM 6 Mode.train (3/2)
        = Except.ok ⟨6, 3/2, Mode.train⟩
    ∧ LayerDropSkippingTransformerLM 6 Mode.train (-1)
        = Except.ok ⟨6, 0, -6, Mode.train⟩
    ∧ LayerDropTransformerLM 6 Mode.eval (-1)
        = Except.ok ⟨6, 0, Mode.eval⟩ := by
  refine ⟨by norm_num [LayerDropSkippingTransformerLM], rfl,
    by norm_num [LayerDropSkippingTransformerLM], rfl⟩

/-- C5 amended: neither builder validates skip_fraction.  The per-layer
builder succeeds for every skip_fraction; the skipping builder succeeds for
every skip_fraction except exactly zero in train mode, where the Python float
division computing maximum_layers raises ZeroDivisionError — not a
ConfigurationError, which does not exist in the module. -/
theorem skip_fraction_construction_amended :
    ∀ (n : ℕ) (mode : Mode) (s : ℚ),
      LayerDropTransformerLM n mode s
          = Except.ok ⟨n, if mode = Mode.train then s else 0, mode⟩
      ∧ LayerDropSkippingTransformerLM n Mode.train 0
          = Except.error BuildError.zeroDivision
      ∧ (mode = Mode.train → s ≠ 0 →
          LayerDropSkippingTransformerLM n mode s
            = Except.ok ⟨n, 0, (n : ℚ) / s, mode⟩)
      ∧ (mode ≠ Mode.train →
          LayerDropSkippingTransformerLM n mode s
            = Except.ok ⟨n, (n : ℚ), (n : ℚ), mode⟩) := by
  intro n mode s
  refine ⟨rfl, by simp [LayerDropSkippingTransformerLM], ?_, ?_⟩
  · intro hm hs
    simp [LayerDropSkippingTransformerLM, hm, hs]
  · intro hm
    simp [LayerDropSkippingTransformerLM, hm]

/-- Witness for the amended C5 statement at n = 2: an out-of-range
skip_fraction of 3/2 is accepted by all three success branches. -/
theorem skip_fraction_construction_amended_witness :
    LayerDropTransformerLM 2 Mode.eval (3/2)
        = Except.ok ⟨2, if Mode.eval = Mode.train then (3/2 : ℚ) else 0, Mode.eval⟩
    ∧ LayerDropSkippingTransformerLM 2 Mode.train (3/2)
        = Except.ok ⟨2, 0, (2 : ℚ) / (3/2), Mode.train⟩
    ∧ LayerDropSkippingTransformerLM 2 Mode.eval (3/2)
        = Except.ok ⟨2, (2 : ℚ), (2 : ℚ), Mode.eval⟩ :=
  ⟨(skip_fraction_construction_amended 2 Mode.eval (3/2)).1,
   (skip_fraction_construction_amended 2 Mode.train (3/2)).2.2.1 rfl (by norm_num),
   (skip_fraction_construction_amended 2 Mode.eval (3/2)).2.2.2 (by decide)⟩

/-- C6 counterexample: SyncedRandom construction with min_val = 5 above
max_val = 3 succeeds — no ConfigurationError is raised; and with equal bounds
the drawn scalar equals the bound, a value outside the then-empty interval
[min_val, max_val). -/
theorem synced_random_no_validation_cx :
    syncedRandomInit 5 3 = Except.ok ⟨5, 3⟩
    ∧ (5 : ℚ) > 3
    ∧ (SyncedRandom.forward ⟨2, 2⟩ (fun _ => 0) 0).1 = 2
    ∧ ¬((2 : ℚ) < 2) := by
  refine ⟨rfl, by norm_num, by show (2 : ℚ) + 0 * (2 - 2) = 2; norm_num, by norm_num⟩

/-- C6 amended: SyncedRandom construction never validates its bounds and
always succeeds, also when min_val is above max_val; when min_val is below
max_val every draw produced from a unit sample in [0,1) lies in
[min_val, max_val); when the bounds coincide every draw equals that bound. -/
theorem synced_random_construction_amended :
    ∀ (mn mx : ℚ) (stream : ℕ → ℚ) (pos : ℕ),
      syncedRandomInit mn mx = Except.ok ⟨mn, mx⟩
      ∧ (mn < mx → 0 ≤ stream pos → stream pos < 1 →
          mn ≤ (SyncedRandom.forward ⟨mn, mx⟩ stream pos).1
          ∧ (SyncedRandom.forward ⟨mn, mx⟩ stream pos).1 < mx)
      ∧ (SyncedRandom.forward ⟨mn, mn⟩ stream pos).1 = mn := by
  intro mn mx stream pos
  refine ⟨rfl, ?_, by show mn + stream pos * (mn - mn) = mn; ring⟩
  intro hlt h0 h1
  constructor
  · show mn ≤ mn + stream pos * (mx - mn)
    nlinarith
  · show mn + stream pos * (mx - mn) < mx
    nlinarith

/-- Witness for the amended C6 statement: bounds 1 and 2 with unit sample 1/2
give a draw inside [1, 2). -/
theorem synced_random_construction_amended_witness :
    syncedRandomInit 1 2 = Except.ok ⟨1, 2⟩
    ∧ (1 : ℚ) ≤ (SyncedRandom.forward ⟨1, 2⟩ (fun _ => 1/2) 0).1
    ∧ (SyncedRandom.forward ⟨1, 2⟩ (fun _ => 1/2) 0).1 < 2 :=
  ⟨(synced_random_construction_amended 1 2 (fun _ => 1/2) 0).1,
   ((synced_random_construction_amended 1 2 (fun _ => 1/2) 0).2.1
      (by norm_num) (by norm_num) (by norm_num)).1,
   ((synced_random_construction_amended 1 2 (fun _ => 1/2) 0).2.1
      (by norm_num) (by norm_num) (by norm_num)).2⟩

/-- C8: the conditional executor applies exactly one of its two branches — the
block when the condition holds, the no-op otherwise, never both and never
neither — and whenever the else branch runs the output activation equals the
input activation exactly, in the conditioned blocks of both models. -/
theorem cond_exclusive_and_identity :
    ∀ (α : Type) (b : Bool) (thenB : α → α) (x : α) (block : α → α) (i : ℕ) (d : ℚ)
      (c : ℚ) (stream : ℕ → ℚ) (pos : ℕ),
      ((condExec b thenB noop x = thenB x ∧ b = true)
        ∨ (condExec b thenB noop x = x ∧ b = false))
      ∧ ¬(b = true ∧ b = false)
      ∧ (LargerThan ((i : ℚ)) d = false → (ConditionedBlockG block i (x, d)).1 = x)
      ∧ (LargerThan c (SyncedRandom.forward ⟨0, 1⟩ stream pos).1 = false →
          (ConditionedBlockP block c stream (x, pos)).1 = x) := by
  intro α b thenB x block i d c stream pos
  refine ⟨?_, by cases b <;> simp, ?_, ?_⟩
  · cases b
    · exact Or.inr ⟨rfl, rfl⟩
    · exact Or.inl ⟨rfl, rfl⟩
  · intro h
    simp [ConditionedBlockG, condExec, h, noop]
  · intro h
    simp only [ConditionedBlockP, condExec, noop]
    rw [h]
    simp

/-- Witness for C8 with a false condition: the else branch runs and the
activation 7 passes through both conditioned blocks unchanged. -/
theorem cond_exclusive_and_identity_witness :
    ((condExec false (fun y : ℚ => y + 1) noop 7 = (7 : ℚ) + 1 ∧ false = true)
      ∨ (condExec false (fun y : ℚ => y + 1) noop 7 = 7 ∧ false = false))
    ∧ (ConditionedBlockG (fun y : ℚ => y + 1) 0 ((7 : ℚ), 0)).1 = 7
    ∧ (ConditionedBlockP (fun y : ℚ => y + 1) 0 (fun _ => 0) ((7 : ℚ), 0)).1 = 7 :=
  ⟨(cond_exclusive_and_identity ℚ false (fun y => y + 1) 7 (fun y => y + 1)
      0 0 0 (fun _ => 0) 0).1,
   (cond_exclusive_and_identity ℚ false (fun y => y + 1) 7 (fun y => y + 1)
      0 0 0 (fun _ => 0) 0).2.2.1
     (by simp only [LargerThan, decide_eq_false_iff_not]; norm_num),
   (cond_exclusive_and_identity ℚ false (fun y => y + 1) 7 (fun y => y + 1)
      0 0 0 (fun _ => 0) 0).2.2.2
     (by show decide (((0:ℚ) + (0:ℚ) * (1 - 0)) > 0) = false
         simp only [decide_eq_false_iff_not]
         norm_num)⟩

/-- C3: in the skipping model the block at layer i runs precisely when the
decision scalar strictly exceeds i, and execution is monotone in the layer
index: under the same scalar, if layer i runs then every layer j below i runs
in the same pass. -/
theorem global_threshold_iff_monotone :
    ∀ (i j : ℕ) (d : ℚ) (α : Type) (block : α → α) (x : α),
      (LargerThan ((i : ℚ)) d = true ↔ d > (i : ℚ))
      ∧ ((ConditionedBlockG block i (x, d)).1 = if d > (i : ℚ) then block x else x)
      ∧ (j < i → LargerThan ((i : ℚ)) d = true → LargerThan ((j : ℚ)) d = true) := by
  intro i j d α block x
  refine ⟨by simp [LargerThan], ?_, ?_⟩
  · rw [ConditionedBlockG_pair]
    by_cases h : d > (i : ℚ) <;> simp [LargerThan, h]
  · intro hji hi
    simp only [LargerThan, decide_eq_true_eq] at *
    have hcast : ((j : ℚ)) < ((i : ℚ)) := by exact_mod_cast hji
    linarith

/-- Witness for C3 with scalar 3/2: layer 1 executes, hence layer 0
executes as well. -/
theorem global_threshold_iff_monotone_witness :
    (LargerThan (((1 : ℕ) : ℚ)) (3/2) = true ↔ (3/2 : ℚ) > ((1 : ℕ) : ℚ))
    ∧ LargerThan (((0 : ℕ) : ℚ)) (3/2) = true :=
  ⟨(global_threshold_iff_monotone 1 0 (3/2) ℚ id 0).1,
   (global_threshold_iff_monotone 1 0 (3/2) ℚ id 0).2.2 (by norm_num)
     (by simp only [LargerThan, decide_eq_true_eq]; norm_num)⟩

/-- C2: in the skipping model a train-mode forward pass draws exactly one
decision scalar — the stream advances by exactly one position — before the
first conditioned block, the builder sets the sampling range to
[0, n_layers / skip_fraction) and the drawn scalar lands in it, the same
scalar rides unchanged through the whole block stack, and in any non-train
mode the drawn scalar equals the constant n_layers for every stream. -/
theorem global_policy_scalar :
    ∀ (n : ℕ) (s : ℚ) (cfg : GlobalConfig),
      0 < n → 0 < s →
      LayerDropSkippingTransformerLM n Mode.train s = Except.ok cfg →
      (cfg.minimum_layers = 0 ∧ cfg.maximum_layers = (n : ℚ) / s)
      ∧ (∀ (α : Type) (ext : Externals α) (stream : ℕ → ℚ) (pos : ℕ) (tokens : α),
          (globalForward cfg ext stream pos tokens).2 = pos + 1)
      ∧ (∀ (stream : ℕ → ℚ) (pos : ℕ), 0 ≤ stream pos → stream pos < 1 →
          0 ≤ (SyncedRandom.forward ⟨cfg.minimum_layers, cfg.maximum_layers⟩ stream pos).1
          ∧ (SyncedRandom.forward ⟨cfg.minimum_layers, cfg.maximum_layers⟩ stream pos).1
              < (n : ℚ) / s)
      ∧ (∀ (α : Type) (blocks : ℕ → α → α) (k : ℕ) (x : α) (d : ℚ),
          (globalStack blocks k (x, d)).2 = d)
      ∧ (∀ (mode : Mode) (cfg2 : GlobalConfig), mode ≠ Mode.train →
          LayerDropSkippingTransformerLM n mode s = Except.ok cfg2 →
          ∀ (stream : ℕ → ℚ) (pos : ℕ),
            (SyncedRandom.forward ⟨cfg2.minimum_layers, cfg2.maximum_layers⟩ stream pos).1
              = (n : ℚ)) := by
  intro n s cfg hn hs hok
  have hs0 : s ≠ 0 := ne_of_gt hs
  have hcfg : cfg = ⟨n, 0, (n : ℚ) / s, Mode.train⟩ := by
    simp [LayerDropSkippingTransformerLM, hs0] at hok
    exact hok.symm
  subst hcfg
  refine ⟨⟨rfl, rfl⟩, fun α ext stream pos tokens => rfl, ?_, ?_, ?_⟩
  · intro stream pos h0 h1
    have hpos : (0 : ℚ) < (n : ℚ) / s := by
      apply div_pos _ hs
      exact_mod_cast hn
    constructor
    · show (0 : ℚ) ≤ 0 + stream pos * ((n : ℚ) / s - 0)
      nlinarith
    · show (0 : ℚ) + stream pos * ((n : ℚ) / s - 0) < (n : ℚ) / s
      nlinarith
  · intro α blocks k x d
    exact globalStack_snd blocks k x d
  · intro mode cfg2 hmode hok2
    have hcfg2 : cfg2 = ⟨n, (n : ℚ), (n : ℚ), mode⟩ := by
      simp [LayerDropSkippingTransformerLM, hmode] at hok2
      exact hok2.symm
    subst hcfg2
    intro stream pos
    show (n : ℚ) + stream pos * ((n : ℚ) - (n : ℚ)) = (n : ℚ)
    ring

/-- Witness for C2 at n = 2, skip_fraction = 1/2, unit sample 1/2: the range
bounds are 0 and 4, the pass consumes one draw, the drawn scalar lies in
[0, 4), the stack threads the scalar 3 unchanged, and the eval-mode scalar
is the constant 2. -/
theorem global_policy_scalar_witness :
    ((⟨2, 0, ((2 : ℕ) : ℚ) / (1/2), Mode.train⟩ : GlobalConfig).minimum_layers = 0
      ∧ (⟨2, 0, ((2 : ℕ) : ℚ) / (1/2), Mode.train⟩ : GlobalConfig).maximum_layers
          = ((2 : ℕ) : ℚ) / (1/2))
    ∧ (globalForward ⟨2, 0, ((2 : ℕ) : ℚ) / (1/2), Mode.train⟩ extQ (fun _ => 1/2) 0 0).2 = 0 + 1
    ∧ (0 ≤ (SyncedRandom.forward ⟨0, ((2 : ℕ) : ℚ) / (1/2)⟩ (fun _ => 1/2) 0).1
        ∧ (SyncedRandom.forward ⟨0, ((2 : ℕ) : ℚ) / (1/2)⟩ (fun _ => 1/2) 0).1
            < ((2 : ℕ) : ℚ) / (1/2))
    ∧ (globalStack (fun _ (x : ℚ) => x + 1) 2 ((0 : ℚ), 3)).2 = 3
    ∧ (SyncedRandom.forward
        ⟨(⟨2, ((2 : ℕ) : ℚ), ((2 : ℕ) : ℚ), Mode.eval⟩ : GlobalConfig).minimum_layers,
         (⟨2, ((2 : ℕ) : ℚ), ((2 : ℕ) : ℚ), Mode.eval⟩ : GlobalConfig).maximum_layers⟩
        (fun _ => 1/2) 0).1 = ((2 : ℕ) : ℚ) := by
  have h := global_policy_scalar 2 (1/2) ⟨2, 0, ((2 : ℕ) : ℚ) / (1/2), Mode.train⟩
    (by norm_num) (by norm_num) (by norm_num [LayerDropSkippingTransformerLM])
  refine ⟨h.1, h.2.1 ℚ extQ (fun _ => 1/2) 0 0,
    h.2.2.1 (fun _ => 1/2) 0 (by norm_num) (by norm_num),
    h.2.2.2.1 ℚ (fun _ (x : ℚ) => x + 1) 2 0 3, ?_⟩
  have hm : Mode.eval ≠ Mode.train := by decide
  have hok : LayerDropSkippingTransformerLM 2 Mode.eval (1/2)
      = Except.ok ⟨2, ((2 : ℕ) : ℚ), ((2 : ℕ) : ℚ), Mode.eval⟩ := by
    norm_num [LayerDropSkippingTransformerLM, hm]
  exact h.2.2.2.2 Mode.eval ⟨2, ((2 : ℕ) : ℚ), ((2 : ℕ) : ℚ), Mode.eval⟩ hm hok
    (fun _ => 1/2) 0

/-- C4: in the per-layer model in train mode the Cond cutoff is
skip_fraction; each of the n layers draws its own fresh unit sample — layer i
decides on the stream position pos + i alone, independent of the other
layers, and the stack advances the stream by exactly n draws — the block runs
precisely when that sample strictly exceeds skip_fraction, and the set of
unit samples in [0,1) that execute a block has measure exactly
1 - skip_fraction. -/
theorem perlayer_train_policy :
    ∀ (n : ℕ) (s : ℚ) (cfg : PerLayerConfig),
      LayerDropTransformerLM n Mode.train s = Except.ok cfg →
      cfg.cutoff = s
      ∧ (∀ (α : Type) (blocks : ℕ → α → α) (stream : ℕ → ℚ) (x : α) (pos : ℕ),
          perLayerStack blocks cfg.cutoff n stream (x, pos)
            = ((List.range n).foldl
                 (fun acc (i : ℕ) => if stream (pos + i) > s then blocks i acc else acc) x,
               pos + n))
      ∧ (∀ u : ℚ, LargerThan s u = true ↔ u > s)
      ∧ (∀ t : ℝ, 0 ≤ t → t < 1 →
          MeasureTheory.volume {u : ℝ | 0 ≤ u ∧ u < 1 ∧ LargerThan t u = true}
            = ENNReal.ofReal (1 - t)) := by
  intro n s cfg hok
  have hcfg : cfg = ⟨n, s, Mode.train⟩ := by
    simp [LayerDropTransformerLM] at hok
    exact hok.symm
  subst hcfg
  refine ⟨rfl, ?_, fun u => by simp [LargerThan], ?_⟩
  · intro α blocks stream x pos
    exact perLayerStack_eq blocks s stream n x pos
  · intro t h0 h1
    have hset : {u : ℝ | 0 ≤ u ∧ u < 1 ∧ LargerThan t u = true} = Set.Ioo t 1 := by
      ext u
      simp only [Set.mem_setOf_eq, Set.mem_Ioo, LargerThan, decide_eq_true_eq]
      constructor
      · rintro ⟨hu0, hu1, hut⟩
        exact ⟨hut, hu1⟩
      · rintro ⟨hut, hu1⟩
        exact ⟨le_trans h0 (le_of_lt hut), hu1, hut⟩
    rw [hset, Real.volume_Ioo]

/-- Witness for C4 at one layer with skip_fraction 2/5: the cutoff equals
2/5, the sample 1/2 executes since it exceeds 2/5, and the executing sample
set for cutoff 1/2 has measure 1 - 1/2. -/
theorem perlayer_train_policy_witness :
    ((⟨1, 2/5, Mode.train⟩ : PerLayerConfig).cutoff = 2/5)
    ∧ (LargerThan (2/5 : ℚ) (1/2) = true ↔ (1/2 : ℚ) > 2/5)
    ∧ MeasureTheory.volume {u : ℝ | 0 ≤ u ∧ u < 1 ∧ LargerThan (1/2 : ℝ) u = true}
        = ENNReal.ofReal (1 - 1/2) :=
  ⟨(perlayer_train_policy 1 (2/5) ⟨1, 2/5, Mode.train⟩ rfl).1,
   (perlayer_train_policy 1 (2/5) ⟨1, 2/5, Mode.train⟩ rfl).2.2.1 (1/2),
   (perlayer_train_policy 1 (2/5) ⟨1, 2/5, Mode.train⟩ rfl).2.2.2 (1/2)
     (by norm_num) (by norm_num)⟩

/-- C1 counterexample, per-layer model in eval mode with one layer and blocks
modelled as adding one: the builder yields cutoff 0; the unit sample 0 — a
value the range [0,1) contains — makes the predicate false so the block is
skipped (output 0 instead of 1), and the immediately following pass on the
same input, whose sample is 1/2, executes the block (output 1): two
consecutive forward passes differ. -/
theorem perlayer_boundary_cx :
    LayerDropTransformerLM 1 Mode.eval (2/5) = Except.ok ⟨1, 0, Mode.eval⟩
    ∧ ((0 : ℚ) ≤ 0 ∧ (0 : ℚ) < 1)
    ∧ LargerThan (0 : ℚ) 0 = false
    ∧ (perLayerForward ⟨1, 0, Mode.eval⟩ extQ (fun p => if p = 0 then 0 else 1/2) 0 0).1 = 0
    ∧ (perLayerForward ⟨1, 0, Mode.eval⟩ extQ (fun p => if p = 0 then 0 else 1/2) 1 0).1 = 1 := by
  refine ⟨rfl, by norm_num, by simp [LargerThan], ?_, ?_⟩
  · show (perLayerStack extQ.blocks 0 1 (fun p => if p = 0 then 0 else 1/2) ((0 : ℚ), 0)).1 = 0
    rw [perLayerStack_eq]
    norm_num [List.range_succ, extQ]
  · show (perLayerStack extQ.blocks 0 1 (fun p => if p = 0 then 0 else 1/2) ((0 : ℚ), 1)).1 = 1
    rw [perLayerStack_eq]
    norm_num [List.range_succ, extQ]

/-- C1 amended: in eval and predict mode the skipping model executes the
decoder block at every one of its n layers and its output does not depend on
the random stream at all — two passes on the same input coincide; the
per-layer model keeps cutoff 0 and executes each block precisely when that
layer draws a strictly positive unit sample: every sample in (0,1) executes
the block, while the boundary sample 0, which the draw range [0,1) contains,
skips it. -/
theorem nontrain_execution_amended :
    ∀ (n : ℕ) (mode : Mode) (s : ℚ) (cfgG : GlobalConfig) (cfgP : PerLayerConfig),
      mode ≠ Mode.train →
      LayerDropSkippingTransformerLM n mode s = Except.ok cfgG →
      LayerDropTransformerLM n mode s = Except.ok cfgP →
      (∀ (α : Type) (ext : Externals α) (stream stream2 : ℕ → ℚ) (pos pos2 : ℕ) (tokens : α),
          (globalForward cfgG ext stream pos tokens).1
            = (globalForward cfgG ext stream2 pos2 tokens).1)
      ∧ (∀ (α : Type) (ext : Externals α) (stream : ℕ → ℚ) (pos : ℕ) (tokens : α),
          (globalForward cfgG ext stream pos tokens).1
            = ext.logSoftmax (ext.dense (ext.layerNorm
                (allBlocksStack ext.blocks n (ext.embed (ext.shiftRight tokens))))))
      ∧ cfgP.cutoff = 0
      ∧ (∀ u : ℚ, 0 < u → LargerThan cfgP.cutoff u = true)
      ∧ LargerThan cfgP.cutoff 0 = false := by
  intro n mode s cfgG cfgP hm hokG hokP
  have hG : cfgG = ⟨n, (n : ℚ), (n : ℚ), mode⟩ := by
    simp [LayerDropSkippingTransformerLM, hm] at hokG
    exact hokG.symm
  have hP : cfgP = ⟨n, 0, mode⟩ := by
    simp [LayerDropTransformerLM, hm] at hokP
    exact hokP.symm
  subst hG
  subst hP
  refine ⟨?_, ?_, rfl, ?_, by simp [LargerThan]⟩
  · intro α ext stream stream2 pos pos2 tokens
    rw [globalForward_const_output, globalForward_const_output]
  · intro α ext stream pos tokens
    exact globalForward_const_output n mode ext stream pos tokens
  · intro u hu
    simp only [LargerThan, decide_eq_true_eq]
    exact hu

/-- Witness for the amended C1 statement: the one-layer skipping model in
eval mode gives the same output under two different streams and positions,
the per-layer eval cutoff is 0, and the positive sample 1/2 executes the
block. -/
theorem nontrain_execution_amended_witness :
    ((globalForward ⟨1, ((1 : ℕ) : ℚ), ((1 : ℕ) : ℚ), Mode.eval⟩ extQ (fun _ => 0) 0 0).1
        = (globalForward ⟨1, ((1 : ℕ) : ℚ), ((1 : ℕ) : ℚ), Mode.eval⟩ extQ
            (fun _ => 1/2) 5 0).1)
    ∧ ((⟨1, 0, Mode.eval⟩ : PerLayerConfig).cutoff = 0)
    ∧ LargerThan ((⟨1, 0, Mode.eval⟩ : PerLayerConfig).cutoff) (1/2) = true := by
  have hm : Mode.eval ≠ Mode.train := by decide
  have hokG : LayerDropSkippingTransformerLM 1 Mode.eval (2/5)
      = Except.ok ⟨1, ((1 : ℕ) : ℚ), ((1 : ℕ) : ℚ), Mode.eval⟩ := by
    norm_num [LayerDropSkippingTransformerLM, hm]
  have h := nontrain_execution_amended 1 Mode.eval (2/5)
    ⟨1, ((1 : ℕ) : ℚ), ((1 : ℕ) : ℚ), Mode.eval⟩ ⟨1, 0, Mode.eval⟩ hm hokG rfl
  exact ⟨h.1 ℚ extQ (fun _ => 0) (fun _ => 1/2) 0 5 0, h.2.2.1,
    h.2.2.2.1 (1/2) (by norm_num)⟩

/-- C7 counterexample: in eval mode the skip machinery still consumes
randomness — the two-layer skipping model advances the caller random stream
by one draw per forward pass, and the two-layer per-layer model by two
draws, never by zero. -/
theorem nontrain_rng_advances_cx :
    LayerDropSkippingTransformerLM 2 Mode.eval (2/5) = Except.ok ⟨2, 2, 2, Mode.eval⟩
    ∧ (globalForward ⟨2, 2, 2, Mode.eval⟩ extQ (fun _ => 0) 0 0).2 = 1
    ∧ LayerDropTransformerLM 2 Mode.eval (2/5) = Except.ok ⟨2, 0, Mode.eval⟩
    ∧ (perLayerForward ⟨2, 0, Mode.eval⟩ extQ (fun _ => 0) 0 0).2 = 2 := by
  refine ⟨rfl, rfl, rfl, ?_⟩
  show (perLayerStack extQ.blocks 0 2 (fun _ => 0) ((0 : ℚ), 0)).2 = 2
  rw [perLayerStack_eq]

/-- C7 amended: in non-train modes the decision scalar of the skipping model
is the constant n_layers whatever the random stream — the policy output is
deterministic there — but the skip machinery does advance the caller random
stream: by exactly one draw per pass in the skipping model and by exactly
n_layers draws per pass in the per-layer model, whose per-layer scalars are
the raw unit samples themselves. -/
theorem nontrain_rng_amended :
    ∀ (n : ℕ) (mode : Mode) (s : ℚ) (cfgG : GlobalConfig) (cfgP : PerLayerConfig),
      mode ≠ Mode.train →
      LayerDropSkippingTransformerLM n mode s = Except.ok cfgG →
      LayerDropTransformerLM n mode s = Except.ok cfgP →
      (∀ (stream : ℕ → ℚ) (pos : ℕ),
          (SyncedRandom.forward ⟨cfgG.minimum_layers, cfgG.maximum_layers⟩ stream pos).1
            = (n : ℚ))
      ∧ (∀ (α : Type) (ext : Externals α) (stream : ℕ → ℚ) (pos : ℕ) (tokens : α),
          (globalForward cfgG ext stream pos tokens).2 = pos + 1)
      ∧ (∀ (α : Type) (ext : Externals α) (stream : ℕ → ℚ) (pos : ℕ) (tokens : α),
          (perLayerForward cfgP ext stream pos tokens).2 = pos + n) := by
  intro n mode s cfgG cfgP hm hokG hokP
  have hG : cfgG = ⟨n, (n : ℚ), (n : ℚ), mode⟩ := by
    simp [LayerDropSkippingTransformerLM, hm] at hokG
    exact hokG.symm
  have hP : cfgP = ⟨n, 0, mode⟩ := by
    simp [LayerDropTransformerLM, hm] at hokP
    exact hokP.symm
  subst hG
  subst hP
  refine ⟨?_, fun α ext stream pos tokens => rfl, ?_⟩
  · intro stream pos
    show (n : ℚ) + stream pos * ((n : ℚ) - (n : ℚ)) = (n : ℚ)
    ring
  · intro α ext stream pos tokens
    show (perLayerStack ext.blocks 0 n stream (ext.embed (ext.shiftRight tokens), pos)).2
      = pos + n
    rw [perLayerStack_eq]

/-- Witness for the amended C7 statement on one-layer eval models: the scalar
is the constant 1, the skipping pass advances the stream from 3 to 4, and
the per-layer pass advances it from 3 to 4 as well. -/
theorem nontrain_rng_amended_witness :
    ((SyncedRandom.forward
        ⟨(⟨1, ((1 : ℕ) : ℚ), ((1 : ℕ) : ℚ), Mode.eval⟩ : GlobalConfig).minimum_layers,
         (⟨1, ((1 : ℕ) : ℚ), ((1 : ℕ) : ℚ), Mode.eval⟩ : GlobalConfig).maximum_layers⟩
        (fun _ => 0) 3).1 = ((1 : ℕ) : ℚ))
    ∧ (globalForward ⟨1, ((1 : ℕ) : ℚ), ((1 : ℕ) : ℚ), Mode.eval⟩ extQ (fun _ => 0) 3 0).2
        = 3 + 1
    ∧ (perLayerForward ⟨1, 0, Mode.eval⟩ extQ (fun _ => 0) 3 0).2 = 3 + 1 := by
  have hm : Mode.eval ≠ Mode.train := by decide
  have hokG : LayerDropSkippingTransformerLM 1 Mode.eval (2/5)
      = Except.ok ⟨1, ((1 : ℕ) : ℚ), ((1 : ℕ) : ℚ), Mode.eval⟩ := by
    norm_num [LayerDropSkippingTransformerLM, hm]
  have h := nontrain_rng_amended 1 Mode.eval (2/5)
    ⟨1, ((1 : ℕ) : ℚ), ((1 : ℕ) : ℚ), Mode.eval⟩ ⟨1, 0, Mode.eval⟩ hm hokG rfl
  exact ⟨h.1 (fun _ => 0) 3, h.2.1 ℚ extQ (fun _ => 0) 3 0, h.2.2 ℚ extQ (fun _ => 0) 3 0⟩

/-- C10: in non-train modes neither builder lets skip_fraction influence the
constructed model — two constructions that differ only in skip_fraction are
identical, and in particular their forward passes agree on every activation
input, every stream and every position. -/
theorem nontrain_skip_fraction_irrelevant :
    ∀ (n : ℕ) (mode : Mode) (s1 s2 : ℚ),
      mode ≠ Mode.train →
      LayerDropSkippingTransformerLM n mode s1 = LayerDropSkippingTransformerLM n mode s2
      ∧ LayerDropTransformerLM n mode s1 = LayerDropTransformerLM n mode s2
      ∧ (∀ (cfg1 cfg2 : GlobalConfig),
          LayerDropSkippingTransformerLM n mode s1 = Except.ok cfg1 →
          LayerDropSkippingTransformerLM n mode s2 = Except.ok cfg2 →
          ∀ (α : Type) (ext : Externals α) (stream : ℕ → ℚ) (pos : ℕ) (tokens : α),
            globalForward cfg1 ext stream pos tokens
              = globalForward cfg2 ext stream pos tokens)
      ∧ (∀ (cfg1 cfg2 : PerLayerConfig),
          LayerDropTransformerLM n mode s1 = Except.ok cfg1 →
          LayerDropTransformerLM n mode s2 = Except.ok cfg2 →
          ∀ (α : Type) (ext : Externals α) (stream : ℕ → ℚ) (pos : ℕ) (tokens : α),
            perLayerForward cfg1 ext stream pos tokens
              = perLayerForward cfg2 ext stream pos tokens) := by
  intro n mode s1 s2 hm
  refine ⟨by simp [LayerDropSkippingTransformerLM, hm],
    by simp [LayerDropTransformerLM, hm], ?_, ?_⟩
  · intro cfg1 cfg2 h1 h2 α ext stream pos tokens
    have e1 : cfg1 = ⟨n, (n : ℚ), (n : ℚ), mode⟩ := by
      simp [LayerDropSkippingTransformerLM, hm] at h1
      exact h1.symm
    have e2 : cfg2 = ⟨n, (n : ℚ), (n : ℚ), mode⟩ := by
      simp [LayerDropSkippingTransformerLM, hm] at h2
      exact h2.symm
    rw [e1, e2]
  · intro cfg1 cfg2 h1 h2 α ext stream pos tokens
    have e1 : cfg1 = ⟨n, 0, mode⟩ := by
      simp [LayerDropTransformerLM, hm] at h1
      exact h1.symm
    have e2 : cfg2 = ⟨n, 0, mode⟩ := by
      simp [LayerDropTransformerLM, hm] at h2
      exact h2.symm
    rw [e1, e2]

/-- Witness for C10 on one-layer eval models with skip fractions 1/4 and 3/4:
both builders return identical results, and the forward passes of the
resulting configurations coincide at a concrete input. -/
theorem nontrain_skip_fraction_irrelevant_witness :
    (LayerDropSkippingTransformerLM 1 Mode.eval (1/4)
        = LayerDropSkippingTransformerLM 1 Mode.eval (3/4))
    ∧ (LayerDropTransformerLM 1 Mode.eval (1/4)
        = LayerDropTransformerLM 1 Mode.eval (3/4))
    ∧ (globalForward ⟨1, ((1 : ℕ) : ℚ), ((1 : ℕ) : ℚ), Mode.eval⟩ extQ (fun _ => 0) 0 0
        = globalForward ⟨1, ((1 : ℕ) : ℚ), ((1 : ℕ) : ℚ), Mode.eval⟩ extQ (fun _ => 0) 0 0)
    ∧ (perLayerForward ⟨1, 0, Mode.eval⟩ extQ (fun _ => 0) 0 0
        = perLayerForward ⟨1, 0, Mode.eval⟩ extQ (fun _ => 0) 0 0) := by
  have hm : Mode.eval ≠ Mode.train := by decide
  have hokG : LayerDropSkippingTransformerLM 1 Mode.eval (1/4)
      = Except.ok ⟨1, ((1 : ℕ) : ℚ), ((1 : ℕ) : ℚ), Mode.eval⟩ := by
    norm_num [LayerDropSkippingTransformerLM, hm]
  have hokG2 : LayerDropSkippingTransformerLM 1 Mode.eval (3/4)
      = Except.ok ⟨1, ((1 : ℕ) : ℚ), ((1 : ℕ) : ℚ), Mode.eval⟩ := by
    norm_num [LayerDropSkippingTransformerLM, hm]
  have h := nontrain_skip_fraction_irrelevant 1 Mode.eval (1/4) (3/4) hm
  exact ⟨h.1, h.2.1,
    h.2.2.1 ⟨1, ((1 : ℕ) : ℚ), ((1 : ℕ) : ℚ), Mode.eval⟩
      ⟨1, ((1 : ℕ) : ℚ), ((1 : ℕ) : ℚ), Mode.eval⟩ hokG hokG2 ℚ extQ (fun _ => 0) 0 0,
    h.2.2.2 ⟨1, 0, Mode.eval⟩ ⟨1, 0, Mode.eval⟩ rfl rfl ℚ extQ (fun _ => 0) 0 0⟩

end LayerDrop
